import Mathlib

/-!
Shallow embedding of the Project-Inspection quality-audit engine.

The authoritative sources are the Supabase migrations (row-level-security
policies, triggers and SQL functions) and the two page components that
mutate inspection state (`InspectionDetail.handleApproval` together with
`canApprove` / `getNextStatus`, and `CreateInspection.handleSubmit` with
`handleResultChange`), plus the user-management `handleRoleChange`.

Migration ordering note: the repository's final policy state for
`public.inspections` UPDATE is the three role-gated policies of migration
20260104174944 (team leader / HOF auditor / quality head, each with a
USING clause on the current row and a WITH CHECK clause on the new row);
the separate FIX migration ("FIX 1: Remove auditor update policy for
rejected inspections (IMMUTABILITY)") drops the auditor policy for
rejected inspections, which matches the comments in `InspectionDetail`
("rejected inspections are READ-ONLY").  Postgres combines permissive
policies by OR-ing all USING clauses and OR-ing all WITH CHECK clauses.

Identities are modelled as natural numbers; `user_roles` (which carries a
UNIQUE(user_id) constraint in the final schema) is an association list.
-/

namespace QCAudit

/-- The `app_role` enum of the schema. -/
inductive AppRole
  | auditor
  | team_leader
  | hof_auditor
  | quality_head
deriving DecidableEq, Fintype

/-- The `inspection_status` enum of the schema. -/
inductive InspectionStatus
  | pending_team_leader
  | pending_hof_auditor
  | pending_quality_head
  | approved
  | rejected
deriving DecidableEq, Fintype

/-- The `action` column of `approval_history` (CHECK action IN approved, rejected),
which is also the action argument of `handleApproval`. -/
inductive DecisionAction
  | approved
  | rejected
deriving DecidableEq, Fintype

/-- The `specification_type` enum added by migration 20260105141031. -/
inductive SpecificationType
  | dimensional
  | visual
  | functional
  | compliance
deriving DecidableEq, Fintype

abbrev UserId := Nat

/-- A row of `public.specifications` (columns of the final schema that the
claims touch; tolerances are NUMERIC, hence rationals). -/
structure Specification where
  id : Nat
  product_id : Nat
  parameter_name : String
  standard_value : String
  tolerance_min : Option ℚ
  tolerance_max : Option ℚ
  specification_type : SpecificationType
  photo_required : Bool
  remarks_required : Bool
  evidence_required : Bool
deriving DecidableEq

/-- A row of `public.inspections`. -/
structure Inspection where
  id : Nat
  inspection_number : Nat
  product_id : Nat
  created_by : UserId
  status : InspectionStatus
  batch_number : Option String
  remarks : Option String
deriving DecidableEq

/-- A row of `public.inspection_results`. -/
structure InspectionResult where
  id : Nat
  inspection_id : Nat
  specification_id : Nat
  actual_value : String
  is_pass : Bool
  remarks : Option String
deriving DecidableEq

/-- A row of `public.inspection_images` (the evidence attachments). -/
structure InspectionImage where
  id : Nat
  inspection_id : Nat
  image_url : String
  description : Option String
deriving DecidableEq

/-- A row of `public.approval_history` (the audit ledger). -/
structure ApprovalHistoryEntry where
  inspection_id : Nat
  approver_id : UserId
  approver_role : AppRole
  action : DecisionAction
  previous_status : InspectionStatus
  new_status : InspectionStatus
  comments : String
deriving DecidableEq

/-- The database state: every table the claims touch.  `roles` is
`public.user_roles` with its UNIQUE(user_id) key as an association list. -/
structure Database where
  roles : List (UserId × AppRole)
  specifications : List Specification
  inspections : List Inspection
  results : List InspectionResult
  images : List InspectionImage
  history : List ApprovalHistoryEntry
deriving DecidableEq

/-- SQL function `public.has_role(_user_id, _role)`: EXISTS row in
`user_roles` with that user and role. -/
def has_role (roles : List (UserId × AppRole)) (uid : UserId) (r : AppRole) : Bool :=
  roles.any (fun p => p.1 == uid && p.2 == r)

/-- SQL function `public.get_user_role(_user_id)`: SELECT role FROM
user_roles WHERE user_id = _user_id LIMIT 1. -/
def get_user_role (roles : List (UserId × AppRole)) (uid : UserId) : Option AppRole :=
  (roles.find? (fun p => p.1 == uid)).map Prod.snd

/-- Whitespace test used by the JavaScript `trim()` model. -/
def isWs (c : Char) : Bool :=
  c == ' ' || c == '\t' || c == '\n' || c == '\r'

/-- Model of JavaScript `String.prototype.trim()` as used by the page
components (`comments.trim()`, `r.actual_value.trim()`, ...). -/
def jsTrim (s : String) : String :=
  String.mk (((s.toList.dropWhile isWs).reverse.dropWhile isWs).reverse)

/-- Value of a decimal digit character. -/
def digitVal (c : Char) : Option Nat :=
  if c.isDigit then some (c.toNat - 48) else none

/-- Longest digit run at the head of a character list, with the rest. -/
def takeDigits : List Char → List Nat × List Char
  | [] => ([], [])
  | c :: cs =>
    match digitVal c with
    | some d =>
      let p := takeDigits cs
      (d :: p.1, p.2)
    | none => ([], c :: cs)

/-- Reads a digit list as a natural number. -/
def natOfDigits (ds : List Nat) : Nat :=
  ds.foldl (fun a d => 10 * a + d) 0

/-- Optional exponent suffix (e or E, optional sign, digits) of a
JavaScript float literal; a malformed suffix contributes exponent 0
because `parseFloat` stops at the longest valid prefix. -/
def parseExpPart : List Char → Int
  | [] => 0
  | c :: cs =>
    if c == 'e' || c == 'E' then
      match cs with
      | '-' :: cs2 =>
        let p := takeDigits cs2
        if p.1.isEmpty then 0 else -(natOfDigits p.1 : Int)
      | '+' :: cs2 =>
        let p := takeDigits cs2
        if p.1.isEmpty then 0 else (natOfDigits p.1 : Int)
      | _ =>
        let p := takeDigits cs
        if p.1.isEmpty then 0 else (natOfDigits p.1 : Int)
    else 0

/-- Model of JavaScript `parseFloat` on ordinary decimal and scientific
notation (leading whitespace skipped, optional sign, digits with an
optional fractional part, optional exponent, longest valid prefix, any
trailing garbage ignored); `none` plays the role of `NaN`.  The entered
values the claims are about ("10.5", "abc", "", ...) are all in this
fragment. -/
def parseFloat (s : String) : Option ℚ :=
  let cs0 := s.toList.dropWhile isWs
  let sgn : Int := if cs0.headD ' ' == '-' then -1 else 1
  let cs1 := if cs0.headD ' ' == '-' || cs0.headD ' ' == '+' then cs0.tail else cs0
  let ip := takeDigits cs1
  let fp :=
    match ip.2 with
    | '.' :: cs2 => takeDigits cs2
    | _ => ([], ip.2)
  if ip.1.isEmpty && fp.1.isEmpty then none
  else
    let mantissa : Int := (natOfDigits ip.1 * 10 ^ fp.1.length + natOfDigits fp.1 : Nat)
    let e := parseExpPart fp.2
    if 0 ≤ e then
      some (mkRat (sgn * mantissa * 10 ^ e.toNat) (10 ^ fp.1.length))
    else
      some (mkRat (sgn * mantissa) (10 ^ fp.1.length * 10 ^ (-e).toNat))

/-- RLS for `public.inspections` UPDATE, USING side: the OR of the three
role-gated policies of migration 20260104174944.  The fourth policy of
that migration ("Auditors can update own rejected inspections") is
dropped again by the later immutability FIX migration ("FIX 1: Remove
auditor update policy for rejected inspections"), which is the final
state this embedding models. -/
def inspectionsUpdateUsing (roles : List (UserId × AppRole)) (uid : UserId)
    (row : Inspection) : Bool :=
  (has_role roles uid AppRole.team_leader && row.status == InspectionStatus.pending_team_leader)
  || (has_role roles uid AppRole.hof_auditor && row.status == InspectionStatus.pending_hof_auditor)
  || (has_role roles uid AppRole.quality_head && row.status == InspectionStatus.pending_quality_head)

/-- RLS for `public.inspections` UPDATE, WITH CHECK side (OR of the same
three policies, evaluated on the new row). -/
def inspectionsUpdateCheck (roles : List (UserId × AppRole)) (uid : UserId)
    (row : Inspection) : Bool :=
  (has_role roles uid AppRole.team_leader
    && (row.status == InspectionStatus.pending_hof_auditor || row.status == InspectionStatus.rejected))
  || (has_role roles uid AppRole.hof_auditor
    && (row.status == InspectionStatus.pending_quality_head || row.status == InspectionStatus.rejected))
  || (has_role roles uid AppRole.quality_head
    && (row.status == InspectionStatus.approved || row.status == InspectionStatus.rejected))

/-- Postgres `UPDATE public.inspections ... WHERE id = inspId` under RLS:
rows matching the WHERE clause and some USING clause receive the update;
if an updated row fails every WITH CHECK clause the whole statement
errors (flag `true`) and nothing is written; an update that matches zero
rows is not an error. -/
def updateInspections (db : Database) (uid : UserId) (inspId : Nat)
    (f : Inspection → Inspection) : Database × Bool :=
  let hit := fun (r : Inspection) => r.id == inspId && inspectionsUpdateUsing db.roles uid r
  if (db.inspections.filter hit).any
      (fun r => !(inspectionsUpdateCheck db.roles uid (f r))) then
    (db, true)
  else
    ({ db with inspections := db.inspections.map (fun r => if hit r then f r else r) }, false)

/-- RLS policy "Auditors can manage inspection results" (FOR ALL on
`public.inspection_results`): the parent inspection exists, was created
by the caller, and its status is pending_team_leader OR rejected. -/
def inspectionResultsPolicy (db : Database) (uid : UserId) (inspectionId : Nat) : Bool :=
  db.inspections.any (fun i => i.id == inspectionId && i.created_by == uid
    && (i.status == InspectionStatus.pending_team_leader
        || i.status == InspectionStatus.rejected))

/-- UPDATE on `public.inspection_results` under its FOR ALL policy (the
policy has no separate WITH CHECK, so the USING expression is also
checked on the new row). -/
def updateInspectionResults (db : Database) (uid : UserId) (resultId : Nat)
    (f : InspectionResult → InspectionResult) : Database × Bool :=
  let hit := fun (r : InspectionResult) =>
    r.id == resultId && inspectionResultsPolicy db uid r.inspection_id
  if (db.results.filter hit).any
      (fun r => !(inspectionResultsPolicy db uid (f r).inspection_id)) then
    (db, true)
  else
    ({ db with results := db.results.map (fun r => if hit r then f r else r) }, false)

/-- INSERT on `public.inspection_results` under the same policy. -/
def insertInspectionResult (db : Database) (uid : UserId) (row : InspectionResult) :
    Database × Bool :=
  if inspectionResultsPolicy db uid row.inspection_id then
    ({ db with results := db.results ++ [row] }, false)
  else (db, true)

/-- DELETE on `public.inspection_results` under the same policy (RLS
silently restricts the rows a DELETE touches; it never errors). -/
def deleteInspectionResults (db : Database) (uid : UserId) (resultId : Nat) : Database :=
  { db with results := db.results.filter (fun r =>
      !(r.id == resultId && inspectionResultsPolicy db uid r.inspection_id)) }

/-- RLS policy "Auditors can manage inspection images" (FOR ALL on
`public.inspection_images`): the parent inspection exists and was created
by the caller — with no condition on the inspection's status. -/
def inspectionImagesPolicy (db : Database) (uid : UserId) (inspectionId : Nat) : Bool :=
  db.inspections.any (fun i => i.id == inspectionId && i.created_by == uid)

/-- INSERT on `public.inspection_images` under that policy. -/
def insertInspectionImage (db : Database) (uid : UserId) (img : InspectionImage) :
    Database × Bool :=
  if inspectionImagesPolicy db uid img.inspection_id then
    ({ db with images := db.images ++ [img] }, false)
  else (db, true)

/-- DELETE on `public.inspection_images` under that policy. -/
def deleteInspectionImages (db : Database) (uid : UserId) (imgId : Nat) : Database :=
  { db with images := db.images.filter (fun img =>
      !(img.id == imgId && inspectionImagesPolicy db uid img.inspection_id)) }

/-- INSERT on `public.approval_history`.  The only RLS policy is
"Approvers can insert approval history": WITH CHECK (approver_id =
auth.uid()).  The schema additionally enforces the foreign key on
`inspection_id` (the `approver_role`, `action`, `previous_status` and
`new_status` columns are constrained only by their types, which the
Lean field types already capture). -/
def insertApprovalHistory (db : Database) (uid : UserId) (e : ApprovalHistoryEntry) :
    Database × Bool :=
  if e.approver_id == uid && db.inspections.any (fun i => i.id == e.inspection_id) then
    ({ db with history := db.history ++ [e] }, false)
  else (db, true)

/-- The `roleStatusMap` of `InspectionDetail.canApprove`. -/
def roleStatusMap : AppRole → InspectionStatus
  | AppRole.auditor => InspectionStatus.rejected
  | AppRole.team_leader => InspectionStatus.pending_team_leader
  | AppRole.hof_auditor => InspectionStatus.pending_hof_auditor
  | AppRole.quality_head => InspectionStatus.pending_quality_head

/-- `InspectionDetail.canApprove`: false without a role, false for
auditors (rejected inspections are read-only for them), else true exactly
when the viewed status is the one the role reviews. -/
def canApprove (role : Option AppRole) (viewStatus : InspectionStatus) : Bool :=
  match role with
  | none => false
  | some AppRole.auditor => false
  | some r => viewStatus == roleStatusMap r

/-- `InspectionDetail.getNextStatus`. -/
def getNextStatus (viewStatus : InspectionStatus) (action : DecisionAction) :
    InspectionStatus :=
  match action with
  | DecisionAction.rejected => InspectionStatus.rejected
  | DecisionAction.approved =>
    match viewStatus with
    | InspectionStatus.pending_team_leader => InspectionStatus.pending_hof_auditor
    | InspectionStatus.pending_hof_auditor => InspectionStatus.pending_quality_head
    | InspectionStatus.pending_quality_head => InspectionStatus.approved
    | s => s

/-- Outcome of a `decide` call as observed by `InspectionDetail`. -/
inductive DecideOutcome
  | forbidden
  | commentRequired
  | historyError
  | updateError
  | success
deriving DecidableEq, Fintype

/-- The `decide` operation: `InspectionDetail.handleApproval` including
the component's gating (the approval card renders only when `canApprove()`
holds on the fetched snapshot `view`; the caller's role is resolved from
`user_roles`).  It performs, in order and as two separate statements with
no surrounding transaction: the `approval_history` INSERT, then the
`inspections` status UPDATE.  A failure of the first statement is caught
before the second runs, but a failure (or zero-row match) of the second
leaves the already-inserted history row in place. -/
def handleApproval (db : Database) (uid : UserId) (view : Inspection)
    (action : DecisionAction) (comments : String) : Database × DecideOutcome :=
  match get_user_role db.roles uid with
  | none => (db, DecideOutcome.forbidden)
  | some r =>
    if !(canApprove (some r) view.status) then (db, DecideOutcome.forbidden)
    else if jsTrim comments == "" then (db, DecideOutcome.commentRequired)
    else
      let newStatus := getNextStatus view.status action
      let entry : ApprovalHistoryEntry :=
        { inspection_id := view.id, approver_id := uid, approver_role := r,
          action := action, previous_status := view.status, new_status := newStatus,
          comments := jsTrim comments }
      let ins := insertApprovalHistory db uid entry
      if ins.2 then (ins.1, DecideOutcome.historyError)
      else
        let upd := updateInspections ins.1 uid view.id
          (fun row => { row with status := newStatus })
        if upd.2 then (upd.1, DecideOutcome.updateError)
        else (upd.1, DecideOutcome.success)

/-- RLS policy "Quality head can manage roles" (FOR ALL on
`public.user_roles`): the acting user holds quality_head — with no
condition on the target row. -/
def userRolesPolicy (db : Database) (uid : UserId) : Bool :=
  has_role db.roles uid AppRole.quality_head

/-- `Users.handleRoleChange`: the backend write path of role assignment.
With `none` it deletes the target's role row; otherwise it updates the
existing row or inserts a new one.  RLS silently restricts UPDATE/DELETE
to zero rows for a non-quality-head caller (no error), and rejects a
non-quality-head INSERT via WITH CHECK (flag `true`). -/
def handleRoleChange (db : Database) (uid : UserId) (targetId : UserId)
    (newRole : Option AppRole) : Database × Bool :=
  match newRole with
  | none =>
    if userRolesPolicy db uid then
      ({ db with roles := db.roles.filter (fun p => p.1 != targetId) }, false)
    else (db, false)
  | some r =>
    if db.roles.any (fun p => p.1 == targetId) then
      if userRolesPolicy db uid then
        ({ db with roles := db.roles.map (fun p => if p.1 == targetId then (p.1, r) else p) },
          false)
      else (db, false)
    else
      if userRolesPolicy db uid then ({ db with roles := db.roles ++ [(targetId, r)] }, false)
      else (db, true)

/-- `ProductSpecifications.handleDelete` reaching the database: DELETE on
`public.specifications` under the "Quality head can manage
specifications" FOR ALL policy, with the BEFORE DELETE trigger
`prevent_used_specification_deletion` raising an exception (flag `true`,
statement aborted, nothing deleted) when any `inspection_results` row
references the specification. -/
def deleteSpecification (db : Database) (uid : UserId) (specId : Nat) : Database × Bool :=
  let hit := fun (s : Specification) =>
    s.id == specId && has_role db.roles uid AppRole.quality_head
  if (db.specifications.filter hit).any
      (fun s => db.results.any (fun r => r.specification_id == s.id)) then
    (db, true)
  else
    ({ db with specifications := db.specifications.filter (fun s => !(hit s)) }, false)

/-- The `InspectionResultInput` interface of `CreateInspection` (one form
entry per specification; initialised with empty value, `is_pass = true`
and empty remarks). -/
structure InspectionResultInput where
  specification_id : Nat
  actual_value : String
  is_pass : Bool
  remarks : String
deriving DecidableEq

/-- The `field == 'actual_value'` branch of
`CreateInspection.handleResultChange`: store the entered text and, for a
dimensional specification whose tolerance_min and tolerance_max are both
non-null, recompute `is_pass` as `num >= tolerance_min && num <=
tolerance_max` when `parseFloat` of the value is not NaN; in every other
case `is_pass` is left untouched. -/
def handleResultChange (spec : Specification) (r : InspectionResultInput)
    (v : String) : InspectionResultInput :=
  let r1 := { r with actual_value := v }
  if spec.specification_type == SpecificationType.dimensional then
    match spec.tolerance_min, spec.tolerance_max with
    | some lo, some hi =>
      match parseFloat v with
      | some x => { r1 with is_pass := decide (lo ≤ x) && decide (x ≤ hi) }
      | none => r1
    | _, _ => r1
  else r1

/-- The `field == 'remarks'` branch of
`CreateInspection.handleResultChange` (never touches `is_pass`). -/
def setResultRemarks (r : InspectionResultInput) (v : String) : InspectionResultInput :=
  { r with remarks := v }

/-- `CreateInspection.togglePassFail`: the handler of the clickable
Pass/Fail button.  For non-dimensional rows it flips `is_pass` and
rewrites the actual value from the new flag ("Yes"/"No" for compliance,
"Pass"/"Fail" otherwise).  For dimensional rows — the Status column
renders this button exactly for them — the else branch flips `is_pass`
and leaves the entered value untouched, overriding the range check of
`handleResultChange` without re-evaluating it. -/
def togglePassFail (spec : Specification) (r : InspectionResultInput) :
    InspectionResultInput :=
  if spec.specification_type != SpecificationType.dimensional then
    let flipped := { r with is_pass := !r.is_pass }
    if spec.specification_type == SpecificationType.compliance then
      { flipped with actual_value := if !flipped.is_pass then "No" else "Yes" }
    else
      { flipped with actual_value := if !flipped.is_pass then "Fail" else "Pass" }
  else
    { r with is_pass := !r.is_pass }

/-- The `missingValues` check of `CreateInspection.handleSubmit`: some
dimensional specification whose entered actual value is empty after
trimming (non-dimensional rows are never flagged). -/
def submitMissingValues (specs : List Specification)
    (inputs : List InspectionResultInput) : Bool :=
  (inputs.zip specs).any (fun p =>
    p.2.specification_type == SpecificationType.dimensional
      && jsTrim p.1.actual_value == "")

/-- The `missingRemarks` check of `CreateInspection.handleSubmit`: some
specification with `remarks_required` whose remark is empty after
trimming. -/
def submitMissingRemarks (specs : List Specification)
    (inputs : List InspectionResultInput) : Bool :=
  (inputs.zip specs).any (fun p => p.2.remarks_required && jsTrim p.1.remarks == "")

/-- SQL function `public.generate_inspection_number` (COUNT(*) + 1,
modelled without the date prefix formatting). -/
def generate_inspection_number (db : Database) : Nat :=
  db.inspections.length + 1

/-- A fresh primary key for `public.inspections` (`gen_random_uuid()`:
guaranteed distinct from every existing id). -/
def freshInspectionId (db : Database) : Nat :=
  (db.inspections.map Inspection.id).foldr max 0 + 1

/-- A fresh primary key base for `public.inspection_results`. -/
def freshResultId (db : Database) : Nat :=
  (db.results.map InspectionResult.id).foldr max 0 + 1

/-- One element of the `resultsToInsert` mapping of
`CreateInspection.handleSubmit`: for a non-dimensional specification with
an empty entered value the actual value defaults from the pass flag
("Yes"/"No" for compliance, "Pass"/"Fail" otherwise); empty remarks
become NULL. -/
def buildResultRow (inspId : Nat) (rid : Nat)
    (p : InspectionResultInput × Specification) : InspectionResult :=
  let actualValue :=
    if p.2.specification_type != SpecificationType.dimensional && p.1.actual_value == "" then
      if p.2.specification_type == SpecificationType.compliance then
        if p.1.is_pass then "Yes" else "No"
      else
        if p.1.is_pass then "Pass" else "Fail"
    else p.1.actual_value
  { id := rid, inspection_id := inspId, specification_id := p.1.specification_id,
    actual_value := actualValue, is_pass := p.1.is_pass,
    remarks := if p.1.remarks == "" then none else some p.1.remarks }

/-- The full `resultsToInsert` batch, with consecutive fresh row ids. -/
def buildResultRows (inspId : Nat) (rid : Nat) :
    List (InspectionResultInput × Specification) → List InspectionResult
  | [] => []
  | p :: rest => buildResultRow inspId rid p :: buildResultRows inspId (rid + 1) rest

/-- Outcome of `createInspection` as observed by `CreateInspection`. -/
inductive CreateOutcome
  | validationMissingValues
  | validationMissingRemarks
  | insertError
  | success
deriving DecidableEq, Fintype

/-- The `createInspection` operation: `CreateInspection.handleSubmit`.
`specs` is the fetched specification list of the selected product and
`inputs` the form entries in the same order.  After the two client-side
validations it inserts the inspection row (RLS "Auditors can create
inspections": WITH CHECK caller holds auditor and created_by = caller,
the latter true by construction) with status hard-coded to
`pending_team_leader`, then inserts the result rows under the
inspection-results policy — again two separate statements with no
transaction. -/
def handleSubmit (db : Database) (uid : UserId) (productId : Nat)
    (specs : List Specification) (inputs : List InspectionResultInput)
    (batchNumber : Option String) (remarksField : Option String) :
    Database × CreateOutcome :=
  if submitMissingValues specs inputs then (db, CreateOutcome.validationMissingValues)
  else if submitMissingRemarks specs inputs then (db, CreateOutcome.validationMissingRemarks)
  else if has_role db.roles uid AppRole.auditor then
    let insp : Inspection :=
      { id := freshInspectionId db, inspection_number := generate_inspection_number db,
        product_id := productId, created_by := uid,
        status := InspectionStatus.pending_team_leader,
        batch_number := batchNumber, remarks := remarksField }
    let db1 := { db with inspections := db.inspections ++ [insp] }
    let rows := buildResultRows insp.id (freshResultId db) (inputs.zip specs)
    if rows.all (fun r => inspectionResultsPolicy db1 uid r.inspection_id) then
      ({ db1 with results := db1.results ++ rows }, CreateOutcome.success)
    else (db1, CreateOutcome.insertError)
  else (db, CreateOutcome.insertError)

/-- Status of the inspection row with a given id (read-only projection). -/
def statusOf (db : Database) (inspId : Nat) : Option InspectionStatus :=
  (db.inspections.find? (fun i => i.id == inspId)).map Inspection.status

/-- Number of audit-ledger entries for a given inspection. -/
def historyCount (db : Database) (inspId : Nat) : Nat :=
  (db.history.filter (fun e => e.inspection_id == inspId)).length

/-- The inspections list produced by a status UPDATE under RLS (the map
inside `updateInspections`), named so statements stay readable. -/
def applyStatusUpdate (db : Database) (uid : UserId) (iid : Nat)
    (n : InspectionStatus) : List Inspection :=
  db.inspections.map (fun r =>
    if r.id == iid && inspectionsUpdateUsing db.roles uid r then { r with status := n } else r)

/-- The WITH CHECK violation test of a status UPDATE (the error condition
inside `updateInspections`). -/
def statusUpdateBlocked (db : Database) (uid : UserId) (iid : Nat)
    (n : InspectionStatus) : Bool :=
  (db.inspections.filter (fun r => r.id == iid && inspectionsUpdateUsing db.roles uid r)).any
    (fun r => !(inspectionsUpdateCheck db.roles uid { r with status := n }))

/-- Modelled from the spec: the transition table of §4.2,
`(currentStatus, actorRole, action) -> newStatus`, all other triples
rejected.  This is the refinement target the `decide` implementation is
compared against; it is deliberately written from the spec's words, not
from the code. -/
def specTransition (current : InspectionStatus) (role : Option AppRole)
    (action : DecisionAction) : Option InspectionStatus :=
  match current, role, action with
  | InspectionStatus.pending_team_leader, some AppRole.team_leader, DecisionAction.approved =>
    some InspectionStatus.pending_hof_auditor
  | InspectionStatus.pending_team_leader, some AppRole.team_leader, DecisionAction.rejected =>
    some InspectionStatus.rejected
  | InspectionStatus.pending_hof_auditor, some AppRole.hof_auditor, DecisionAction.approved =>
    some InspectionStatus.pending_quality_head
  | InspectionStatus.pending_hof_auditor, some AppRole.hof_auditor, DecisionAction.rejected =>
    some InspectionStatus.rejected
  | InspectionStatus.pending_quality_head, some AppRole.quality_head, DecisionAction.approved =>
    some InspectionStatus.approved
  | InspectionStatus.pending_quality_head, some AppRole.quality_head, DecisionAction.rejected =>
    some InspectionStatus.rejected
  | _, _, _ => none

/-! Concrete database states used by the per-claim counterexamples and
witnesses below.  Each claim gets its own instance. -/

/-- A dimensional specification with tolerance range 10 to 11 mm. -/
def specDim : Specification :=
  { id := 30, product_id := 5, parameter_name := "thickness", standard_value := "10.5",
    tolerance_min := some (mkRat 10 1), tolerance_max := some (mkRat 11 1),
    specification_type := SpecificationType.dimensional,
    photo_required := false, remarks_required := false, evidence_required := false }

/-- C1 instance: an approved inspection created by auditor 1. -/
def inspC1 : Inspection :=
  { id := 12, inspection_number := 3, product_id := 5, created_by := 1,
    status := InspectionStatus.approved, batch_number := none, remarks := none }

def resC1 : InspectionResult :=
  { id := 20, inspection_id := 12, specification_id := 30,
    actual_value := "10.5", is_pass := true, remarks := none }

def imgC1 : InspectionImage :=
  { id := 40, inspection_id := 12, image_url := "https://x/a.jpg", description := none }

def dbC1 : Database :=
  { roles := [(1, AppRole.auditor), (2, AppRole.team_leader), (3, AppRole.hof_auditor),
      (4, AppRole.quality_head)],
    specifications := [specDim], inspections := [inspC1],
    results := [resC1], images := [imgC1], history := [] }

/-- C1 instance: a new evidence image uploaded after final approval. -/
def imgC1new : InspectionImage :=
  { id := 41, inspection_id := 12, image_url := "https://x/late.jpg", description := none }

/-- C2 instance: a rejected inspection created by auditor 1. -/
def inspC2 : Inspection :=
  { id := 13, inspection_number := 4, product_id := 5, created_by := 1,
    status := InspectionStatus.rejected, batch_number := none, remarks := none }

def resC2 : InspectionResult :=
  { id := 21, inspection_id := 13, specification_id := 30,
    actual_value := "12.5", is_pass := false, remarks := none }

def dbC2 : Database :=
  { roles := [(1, AppRole.auditor), (2, AppRole.team_leader), (3, AppRole.hof_auditor),
      (4, AppRole.quality_head)],
    specifications := [specDim], inspections := [inspC2],
    results := [resC2], images := [], history := [] }

/-- C3 witness instance: a pending_team_leader inspection and a team leader. -/
def inspC3 : Inspection :=
  { id := 10, inspection_number := 1, product_id := 5, created_by := 1,
    status := InspectionStatus.pending_team_leader, batch_number := none, remarks := none }

def dbC3 : Database :=
  { roles := [(1, AppRole.auditor), (2, AppRole.team_leader)],
    specifications := [specDim], inspections := [inspC3],
    results := [], images := [], history := [] }

/-- C4 instance: the inspection has already advanced to pending_hof_auditor ... -/
def inspC4 : Inspection :=
  { id := 14, inspection_number := 5, product_id := 5, created_by := 1,
    status := InspectionStatus.pending_hof_auditor, batch_number := none, remarks := none }

/-- ... but team leader 6 still holds the stale pending_team_leader snapshot. -/
def viewC4 : Inspection :=
  { inspC4 with status := InspectionStatus.pending_team_leader }

def dbC4 : Database :=
  { roles := [(1, AppRole.auditor), (2, AppRole.team_leader), (6, AppRole.team_leader)],
    specifications := [specDim], inspections := [inspC4],
    results := [], images := [], history := [] }

/-- C5 instance: a pending_quality_head inspection; quality head 4 decides
twice from the same fetched snapshot. -/
def inspC5 : Inspection :=
  { id := 11, inspection_number := 2, product_id := 5, created_by := 1,
    status := InspectionStatus.pending_quality_head, batch_number := none, remarks := none }

def dbC5 : Database :=
  { roles := [(1, AppRole.auditor), (4, AppRole.quality_head)],
    specifications := [specDim], inspections := [inspC5],
    results := [], images := [], history := [] }

/-- C6 witness instance: auditor 1 submits value "10.5" against specDim. -/
def dbC6 : Database :=
  { roles := [(1, AppRole.auditor)],
    specifications := [specDim], inspections := [], results := [], images := [],
    history := [] }

/-- The freshly initialised form entry of `CreateInspection` (empty value,
`is_pass = true`, empty remarks). -/
def inputInit : InspectionResultInput :=
  { specification_id := 30, actual_value := "", is_pass := true, remarks := "" }

/-- C6 witness submission: the form entry for specDim after typing
"10.5", and the database state after the successful submit. -/
def inputC6 : InspectionResultInput := handleResultChange specDim inputInit "10.5"

def dbC6res : Database := (handleSubmit dbC6 1 5 [specDim] [inputC6] none none).1

/-- C6 counterexample submission: the auditor types "12" (out of the 10
to 11 tolerance, so the range check sets fail), then clicks the
dimensional row's Pass/Fail toggle once, and submits. -/
def inputC6tog : InspectionResultInput :=
  togglePassFail specDim (handleResultChange specDim inputInit "12")

def dbC6togres : Database := (handleSubmit dbC6 1 5 [specDim] [inputC6tog] none none).1

/-- C7 counterexample instance: auditor 1 submits the non-numeric value
"abc" for a dimensional specification with tolerances. -/
def dbC7 : Database :=
  { roles := [(1, AppRole.auditor)],
    specifications := [specDim], inspections := [], results := [], images := [],
    history := [] }

def inputC7 : InspectionResultInput :=
  { specification_id := 30, actual_value := "abc", is_pass := true, remarks := "" }

/-- C7 witness instance: a functional specification with remarks required. -/
def specC7fn : Specification :=
  { id := 31, product_id := 5, parameter_name := "speaker", standard_value := "works",
    tolerance_min := none, tolerance_max := none,
    specification_type := SpecificationType.functional,
    photo_required := false, remarks_required := true, evidence_required := false }

def inputC7fn : InspectionResultInput :=
  { specification_id := 31, actual_value := "Pass", is_pass := true, remarks := "  " }

/-- C8 instance: two quality heads. -/
def dbC8 : Database :=
  { roles := [(4, AppRole.quality_head), (7, AppRole.quality_head)],
    specifications := [], inspections := [], results := [], images := [], history := [] }

/-- C9 witness instance: specification 30 is referenced by result 20 of a
pending inspection; quality head 4 attempts the delete. -/
def inspC9 : Inspection :=
  { id := 15, inspection_number := 6, product_id := 5, created_by := 1,
    status := InspectionStatus.pending_team_leader, batch_number := none, remarks := none }

def resC9 : InspectionResult :=
  { id := 22, inspection_id := 15, specification_id := 30,
    actual_value := "10.2", is_pass := true, remarks := none }

def dbC9 : Database :=
  { roles := [(1, AppRole.auditor), (4, AppRole.quality_head)],
    specifications := [specDim], inspections := [inspC9],
    results := [resC9], images := [], history := [] }

/-- C10 witness instance: an approved inspection, and a caller (uid 9) who
holds no role at all inserting a ledger entry whose claimed action and
statuses bear no relation to the inspection's actual history. -/
def inspC10 : Inspection :=
  { id := 16, inspection_number := 7, product_id := 5, created_by := 1,
    status := InspectionStatus.approved, batch_number := none, remarks := none }

def dbC10 : Database :=
  { roles := [(1, AppRole.auditor)],
    specifications := [], inspections := [inspC10], results := [], images := [],
    history := [] }

def entryC10 : ApprovalHistoryEntry :=
  { inspection_id := 16, approver_id := 9, approver_role := AppRole.quality_head,
    action := DecisionAction.rejected, previous_status := InspectionStatus.approved,
    new_status := InspectionStatus.pending_team_leader, comments := "fabricated" }

/-! Helper lemmas shared by the claim theorems. -/

theorem specTransition_none_role (s : InspectionStatus) (a : DecisionAction) :
    specTransition s none a = none := by
  cases s <;> cases a <;> rfl

theorem canApprove_false_of_none : ∀ (s : InspectionStatus) (r : Option AppRole)
    (a : DecisionAction), specTransition s r a = none → canApprove r s = false := by
  decide

theorem canApprove_true_of_some : ∀ (s : InspectionStatus) (r : AppRole)
    (a : DecisionAction) (n : InspectionStatus),
    specTransition s (some r) a = some n → canApprove (some r) s = true := by
  decide

theorem getNext_of_specTransition : ∀ (s : InspectionStatus) (r : Option AppRole)
    (a : DecisionAction) (n : InspectionStatus),
    specTransition s r a = some n → getNextStatus s a = n := by
  decide

theorem specTransition_roles (s : InspectionStatus) (role : AppRole)
    (a : DecisionAction) (n : InspectionStatus)
    (h : specTransition s (some role) a = some n) :
    (role = AppRole.team_leader ∧ s = InspectionStatus.pending_team_leader
      ∧ (n = InspectionStatus.pending_hof_auditor ∨ n = InspectionStatus.rejected))
    ∨ (role = AppRole.hof_auditor ∧ s = InspectionStatus.pending_hof_auditor
      ∧ (n = InspectionStatus.pending_quality_head ∨ n = InspectionStatus.rejected))
    ∨ (role = AppRole.quality_head ∧ s = InspectionStatus.pending_quality_head
      ∧ (n = InspectionStatus.approved ∨ n = InspectionStatus.rejected)) := by
  cases s <;> cases role <;> cases a <;> simp [specTransition] at h <;>
    (try subst h) <;> simp

theorem get_user_role_mem {roles : List (UserId × AppRole)} {uid : UserId} {r : AppRole}
    (h : get_user_role roles uid = some r) : (uid, r) ∈ roles := by
  unfold get_user_role at h
  cases hf : roles.find? (fun p => p.1 == uid) with
  | none =>
    rw [hf] at h
    exact Option.noConfusion h
  | some p =>
    rw [hf] at h
    have h2 : p.2 = r := Option.some.inj h
    have hp := List.find?_some hf
    have hm : p ∈ roles := List.mem_of_find?_eq_some hf
    have h1 : p.1 = uid := by simpa using hp
    rw [← h1, ← h2]
    exact hm

theorem has_role_of_mem {roles : List (UserId × AppRole)} {uid : UserId} {r : AppRole}
    (h : (uid, r) ∈ roles) : has_role roles uid r = true :=
  List.any_eq_true.2 ⟨(uid, r), h, by simp⟩

theorem using_of_specTransition {roles : List (UserId × AppRole)} {uid : UserId}
    {role : AppRole} {insp : Inspection} {a : DecisionAction} {n : InspectionStatus}
    (hhr : has_role roles uid role = true)
    (h : specTransition insp.status (some role) a = some n) :
    inspectionsUpdateUsing roles uid insp = true := by
  rcases specTransition_roles insp.status role a n h with ⟨hr, hs, _⟩ | ⟨hr, hs, _⟩ | ⟨hr, hs, _⟩ <;>
    (subst hr; simp [inspectionsUpdateUsing, hhr, hs])

theorem check_of_specTransition {roles : List (UserId × AppRole)} {uid : UserId}
    {role : AppRole} {insp : Inspection} {a : DecisionAction} {n : InspectionStatus}
    (hhr : has_role roles uid role = true)
    (h : specTransition insp.status (some role) a = some n) :
    inspectionsUpdateCheck roles uid { insp with status := n } = true := by
  rcases specTransition_roles insp.status role a n h with ⟨hr, _, hn⟩ | ⟨hr, _, hn⟩ | ⟨hr, _, hn⟩ <;>
    (subst hr; rcases hn with hn | hn <;> simp [inspectionsUpdateCheck, hhr, hn])

theorem find?_id_eq_of_nodup {l : List Inspection} {insp : Inspection}
    (hnd : (l.map Inspection.id).Nodup) (hmem : insp ∈ l) :
    l.find? (fun i => i.id == insp.id) = some insp := by
  induction l with
  | nil => cases hmem
  | cons h t ih =>
    rw [List.map_cons, List.nodup_cons] at hnd
    rcases List.mem_cons.1 hmem with rfl | hmt
    · exact List.find?_cons_of_pos _ (by simp)
    · have hne : ¬ h.id = insp.id := fun he =>
        hnd.1 (he ▸ List.mem_map_of_mem Inspection.id hmt)
      rw [List.find?_cons_of_neg _ (by simpa using hne)]
      exact ih hnd.2 hmt

theorem find?_update_status {l : List Inspection} {insp : Inspection}
    {n : InspectionStatus} (q : Inspection → Bool)
    (hnd : (l.map Inspection.id).Nodup) (hmem : insp ∈ l)
    (hq : q insp = true) :
    (l.map (fun r => if r.id == insp.id && q r then { r with status := n } else r)).find?
      (fun i => i.id == insp.id) = some { insp with status := n } := by
  induction l with
  | nil => cases hmem
  | cons h t ih =>
    rw [List.map_cons, List.nodup_cons] at hnd
    rw [List.map_cons]
    rcases List.mem_cons.1 hmem with rfl | hmt
    · rw [if_pos (by simp [hq])]
      exact List.find?_cons_of_pos _ (by simp)
    · have hne : ¬ h.id = insp.id := fun he =>
        hnd.1 (he ▸ List.mem_map_of_mem Inspection.id hmt)
      have hid : (if h.id == insp.id && q h then { h with status := n } else h).id = h.id := by
        by_cases hcond : (h.id == insp.id && q h) = true
        · rw [if_pos hcond]
        · rw [if_neg hcond]
      have hpred : ((if h.id == insp.id && q h then { h with status := n } else h).id
          == insp.id) = false := by
        rw [hid]
        exact beq_eq_false_iff_ne.2 hne
      rw [List.find?_cons_of_neg _ (by rw [hpred]; exact Bool.false_ne_true)]
      exact ih hnd.2 hmt

theorem statusUpdateBlocked_false {db : Database} {uid : UserId} {insp : Inspection}
    {n : InspectionStatus}
    (hids : (db.inspections.map Inspection.id).Nodup) (hmem : insp ∈ db.inspections)
    (hcheck : inspectionsUpdateCheck db.roles uid { insp with status := n } = true) :
    statusUpdateBlocked db uid insp.id n = false := by
  cases hb : statusUpdateBlocked db uid insp.id n
  · rfl
  · exfalso
    obtain ⟨r, hrmem, hr⟩ := List.any_eq_true.1 hb
    have h1 := List.mem_filter.1 hrmem
    have hid : r.id = insp.id := by
      have h2 := h1.2
      simp only [Bool.and_eq_true, beq_iff_eq] at h2
      exact h2.1
    have hri : r = insp := List.inj_on_of_nodup_map hids h1.1 hmem hid
    subst hri
    rw [hcheck] at hr
    simp at hr

theorem updateInspections_success {db : Database} {uid : UserId} {iid : Nat}
    {n : InspectionStatus}
    (hno : statusUpdateBlocked db uid iid n = false) :
    updateInspections db uid iid (fun row => { row with status := n })
      = ({ db with inspections := applyStatusUpdate db uid iid n }, false) := by
  have h2 : ((db.inspections.filter
      (fun r => r.id == iid && inspectionsUpdateUsing db.roles uid r)).any
      (fun r => !(inspectionsUpdateCheck db.roles uid { r with status := n }))) = false := hno
  simp only [updateInspections, applyStatusUpdate, h2, Bool.false_eq_true, if_false]

theorem insertApprovalHistory_appends {db : Database} {uid : UserId}
    {e : ApprovalHistoryEntry}
    (hown : e.approver_id = uid)
    (hfk : db.inspections.any (fun i => i.id == e.inspection_id) = true) :
    insertApprovalHistory db uid e = ({ db with history := db.history ++ [e] }, false) := by
  simp [insertApprovalHistory, hown, hfk]

theorem get?_append_len {α : Type} (l1 l2 : List α) (i : Nat) :
    (l1 ++ l2).get? (l1.length + i) = l2.get? i := by
  induction l1 with
  | nil => simp
  | cons a t ih =>
    have h : (a :: t).length + i = (t.length + i) + 1 := by
      simp only [List.length_cons]; omega
    rw [h, List.cons_append, List.get?_cons_succ]
    exact ih

theorem zip_get?_some {α β : Type} : ∀ (l1 : List α) (l2 : List β) (i : Nat) (a : α) (b : β),
    l1.get? i = some a → l2.get? i = some b → (l1.zip l2).get? i = some (a, b)
  | [], _, i, _, _, h1, _ => by simp at h1
  | _ :: _, [], i, _, _, _, h2 => by simp at h2
  | x :: t1, y :: t2, 0, a, b, h1, h2 => by
    simp only [List.get?] at h1 h2
    obtain rfl : x = a := Option.some.inj h1
    obtain rfl : y = b := Option.some.inj h2
    rw [List.zip_cons_cons]
    rfl
  | x :: t1, y :: t2, i + 1, a, b, h1, h2 => by
    rw [List.zip_cons_cons, List.get?_cons_succ]
    exact zip_get?_some t1 t2 i a b (by simpa using h1) (by simpa using h2)

theorem buildResultRows_get? (inspId : Nat) :
    ∀ (l : List (InspectionResultInput × Specification)) (b i : Nat),
    (buildResultRows inspId b l).get? i
      = (l.get? i).map (fun p => buildResultRow inspId (b + i) p)
  | [], b, i => by simp [buildResultRows]
  | p :: t, b, 0 => by simp [buildResultRows]
  | p :: t, b, i + 1 => by
    simp only [buildResultRows, List.get?_cons_succ]
    rw [buildResultRows_get? inspId t (b + 1) i]
    have h : b + 1 + i = b + (i + 1) := by omega
    rw [h]

theorem handleResultChange_is_pass {spec : Specification} {r0 : InspectionResultInput}
    {v : String} {x lo hi : ℚ}
    (hdim : spec.specification_type = SpecificationType.dimensional)
    (hlo : spec.tolerance_min = some lo) (hhi : spec.tolerance_max = some hi)
    (hx : parseFloat v = some x) :
    (handleResultChange spec r0 v).is_pass = (decide (lo ≤ x) && decide (x ≤ hi)) := by
  simp [handleResultChange, hdim, hlo, hhi, hx]

theorem togglePassFail_is_pass_dimensional {spec : Specification}
    {r : InspectionResultInput}
    (hdim : spec.specification_type = SpecificationType.dimensional) :
    (togglePassFail spec r).is_pass = !r.is_pass := by
  simp [togglePassFail, hdim]

theorem handleApproval_success_spec {db : Database} {uid : UserId} {insp : Inspection}
    {action : DecisionAction} {comment : String} {r : AppRole} {next : InspectionStatus}
    (hids : (db.inspections.map Inspection.id).Nodup)
    (hmem : insp ∈ db.inspections)
    (hc : (jsTrim comment == "") = false)
    (hrole : get_user_role db.roles uid = some r)
    (hnext : specTransition insp.status (some r) action = some next) :
    (handleApproval db uid insp action comment).2 = DecideOutcome.success ∧
    statusOf (handleApproval db uid insp action comment).1 insp.id = some next ∧
    historyCount (handleApproval db uid insp action comment).1 insp.id
      = historyCount db insp.id + 1 := by
  have hca : canApprove (some r) insp.status = true :=
    canApprove_true_of_some _ _ _ _ hnext
  have hhr : has_role db.roles uid r = true := has_role_of_mem (get_user_role_mem hrole)
  have hnx : getNextStatus insp.status action = next :=
    getNext_of_specTransition _ _ _ _ hnext
  have husing : inspectionsUpdateUsing db.roles uid insp = true :=
    using_of_specTransition hhr hnext
  have hcheck : inspectionsUpdateCheck db.roles uid { insp with status := next } = true :=
    check_of_specTransition hhr hnext
  have hfk : db.inspections.any (fun i => i.id == insp.id) = true :=
    List.any_eq_true.2 ⟨insp, hmem, by simp⟩
  simp only [handleApproval, hrole, hca, Bool.not_true, Bool.false_eq_true, if_false, hc, hnx]
  set E : ApprovalHistoryEntry :=
    { inspection_id := insp.id, approver_id := uid, approver_role := r, action := action,
      previous_status := insp.status, new_status := next, comments := jsTrim comment } with hE
  rw [insertApprovalHistory_appends (show E.approver_id = uid from rfl)
    (show (db.inspections.any fun i => i.id == E.inspection_id) = true from hfk)]
  simp only [Bool.false_eq_true, if_false]
  set D : Database := { db with history := db.history ++ [E] } with hD
  have hblocked : statusUpdateBlocked D uid insp.id next = false :=
    statusUpdateBlocked_false hids hmem hcheck
  rw [updateInspections_success hblocked]
  simp only [Bool.false_eq_true, if_false]
  refine ⟨trivial, ?_, ?_⟩
  · rw [hD]
    simp only [statusOf, applyStatusUpdate]
    rw [find?_update_status (inspectionsUpdateUsing db.roles uid) hids hmem husing]
    rfl
  · rw [hD]
    simp [historyCount, List.filter_append, hE]

/-! Claim theorems. -/

/-- C3: refinement of the spec's transition table.  For every database
with well-formed inspection ids, every inspection in it, every caller and
every action, with a non-empty comment: if the triple (current status,
resolved role, action) is in the spec's table, `decide` (the gated
`handleApproval`) succeeds, the inspection's status becomes exactly the
table's new status, and exactly one approval-history entry is appended;
for every triple NOT in the table the call fails with Forbidden and the
database — status and history count included — is left completely
unchanged. -/
theorem handleApproval_matches_transition_table
    (db : Database) (uid : UserId) (insp : Inspection) (action : DecisionAction)
    (comment : String)
    (hids : (db.inspections.map Inspection.id).Nodup)
    (hmem : insp ∈ db.inspections)
    (hc : (jsTrim comment == "") = false) :
    (∀ next, specTransition insp.status (get_user_role db.roles uid) action = some next →
      (handleApproval db uid insp action comment).2 = DecideOutcome.success ∧
      statusOf (handleApproval db uid insp action comment).1 insp.id = some next ∧
      historyCount (handleApproval db uid insp action comment).1 insp.id
        = historyCount db insp.id + 1) ∧
    (specTransition insp.status (get_user_role db.roles uid) action = none →
      (handleApproval db uid insp action comment).2 = DecideOutcome.forbidden ∧
      (handleApproval db uid insp action comment).1 = db) := by
  constructor
  · intro next hnext
    cases hrole : get_user_role db.roles uid with
    | none =>
      rw [hrole, specTransition_none_role] at hnext
      exact Option.noConfusion hnext
    | some r =>
      rw [hrole] at hnext
      exact handleApproval_success_spec hids hmem hc hrole hnext
  · intro hnone
    cases hrole : get_user_role db.roles uid with
    | none =>
      refine ⟨?_, ?_⟩ <;> simp [handleApproval, hrole]
    | some r =>
      rw [hrole] at hnone
      have hca : canApprove (some r) insp.status = false :=
        canApprove_false_of_none _ _ _ hnone
      refine ⟨?_, ?_⟩ <;> simp [handleApproval, hrole, hca]

/-- C3 witness: team leader 2 approves the pending_team_leader inspection
10 with comment "ok": success, status pending_hof_auditor, one new
history entry. -/
theorem handleApproval_matches_transition_table_witness :
    (handleApproval dbC3 2 inspC3 DecisionAction.approved "ok").2 = DecideOutcome.success ∧
    statusOf (handleApproval dbC3 2 inspC3 DecisionAction.approved "ok").1 inspC3.id
      = some InspectionStatus.pending_hof_auditor ∧
    historyCount (handleApproval dbC3 2 inspC3 DecisionAction.approved "ok").1 inspC3.id
      = historyCount dbC3 inspC3.id + 1 :=
  (handleApproval_matches_transition_table dbC3 2 inspC3 DecisionAction.approved "ok"
    (by decide) (by decide) (by decide)).1 InspectionStatus.pending_hof_auditor (by decide)

/-- C1: the claim states that once an inspection is approved, the
inspection, its results AND its evidence are read-only for every actor.
On the code, decide calls, inspection updates and result mutations are
indeed all blocked for an approved inspection (first five conjuncts,
evaluated on a concrete approved inspection for every reviewer role and
for its creator), but the evidence is NOT frozen: the
`inspection_images` policy checks only `created_by`, so the creator can
still insert and delete evidence images of the approved inspection (last
two conjuncts).  This contradicts the claim and the repository's own
README ("Quality Head approval locks the inspection permanently /
Approved inspections are view/export only"). -/
theorem approved_inspection_evidence_still_mutable :
    handleApproval dbC1 1 inspC1 DecisionAction.approved "ok" = (dbC1, DecideOutcome.forbidden) ∧
    handleApproval dbC1 2 inspC1 DecisionAction.approved "ok" = (dbC1, DecideOutcome.forbidden) ∧
    handleApproval dbC1 3 inspC1 DecisionAction.rejected "ok" = (dbC1, DecideOutcome.forbidden) ∧
    handleApproval dbC1 4 inspC1 DecisionAction.rejected "ok" = (dbC1, DecideOutcome.forbidden) ∧
    updateInspections dbC1 2 12 (fun r => { r with status := InspectionStatus.rejected })
      = (dbC1, false) ∧
    updateInspectionResults dbC1 1 20 (fun r => { r with actual_value := "99" })
      = (dbC1, false) ∧
    deleteInspectionResults dbC1 1 20 = dbC1 ∧
    (insertInspectionImage dbC1 1 imgC1new).2 = false ∧
    (insertInspectionImage dbC1 1 imgC1new).1.images = dbC1.images ++ [imgC1new] ∧
    (deleteInspectionImages dbC1 1 40).images = [] := by
  decide

/-- C2: the claim states that a rejected inspection's row cannot be edited
or resubmitted AND that no operation mutates its Result rows.  On the
code, the inspection row is indeed locked (no UPDATE policy matches a
rejected row, and `canApprove` returns false for auditors — first two
conjuncts), but the "Auditors can manage inspection results" policy
still grants the creator full mutation rights while the inspection's
status is `rejected`: updating a result row of the rejected inspection
succeeds and changes the stored data (last two conjuncts), contradicting
the claim, the immutability FIX migration's own comment ("Rejected
inspections must be READ-ONLY") and the README. -/
theorem rejected_inspection_results_still_mutable :
    updateInspections dbC2 1 13 (fun r => { r with status := InspectionStatus.pending_team_leader })
      = (dbC2, false) ∧
    handleApproval dbC2 1 inspC2 DecisionAction.approved "fixed" = (dbC2, DecideOutcome.forbidden) ∧
    (updateInspectionResults dbC2 1 21 (fun r => { r with actual_value := "10.5", is_pass := true })).2
      = false ∧
    (updateInspectionResults dbC2 1 21 (fun r => { r with actual_value := "10.5", is_pass := true })).1.results
      = [{ resC2 with actual_value := "10.5", is_pass := true }] := by
  decide

/-- C4: the claim states that the status write and the history append of a
decide call are atomic — both or neither.  The code issues them as two
separate statements: a team leader holding a stale pending_team_leader
snapshot of an inspection that has already advanced to
pending_hof_auditor gets the history INSERT committed (it only checks
`approver_id`), while the status UPDATE matches zero rows under RLS; the
call reports success, one ledger entry is appended, and no inspection row
changes. -/
theorem stale_decide_appends_history_without_status_write :
    (handleApproval dbC4 6 viewC4 DecisionAction.approved "ok").2 = DecideOutcome.success ∧
    (handleApproval dbC4 6 viewC4 DecisionAction.approved "ok").1.history.length
      = dbC4.history.length + 1 ∧
    (handleApproval dbC4 6 viewC4 DecisionAction.approved "ok").1.inspections
      = dbC4.inspections := by
  decide

/-- C5: the claim states that after a first decide call commits, a second
decide call with the same arguments fails with Conflict and appends no
second history entry.  On the code, the first call succeeds and moves the
inspection to approved (first three conjuncts); the second call with the
same arguments does not overwrite the status (RLS matches zero rows) but
it reports success — no Conflict-style failure exists anywhere in the
flow — and it appends a second audit-ledger entry (last three
conjuncts). -/
theorem second_decide_reports_success_and_double_appends :
    (handleApproval dbC5 4 inspC5 DecisionAction.approved "ok").2 = DecideOutcome.success ∧
    statusOf (handleApproval dbC5 4 inspC5 DecisionAction.approved "ok").1 11
      = some InspectionStatus.approved ∧
    historyCount (handleApproval dbC5 4 inspC5 DecisionAction.approved "ok").1 11 = 1 ∧
    (handleApproval (handleApproval dbC5 4 inspC5 DecisionAction.approved "ok").1
      4 inspC5 DecisionAction.approved "ok").2 = DecideOutcome.success ∧
    statusOf (handleApproval (handleApproval dbC5 4 inspC5 DecisionAction.approved "ok").1
      4 inspC5 DecisionAction.approved "ok").1 11 = some InspectionStatus.approved ∧
    historyCount (handleApproval (handleApproval dbC5 4 inspC5 DecisionAction.approved "ok").1
      4 inspC5 DecisionAction.approved "ok").1 11 = 2 := by
  decide

/-- C8: the claim states that assignRole fails with InvalidOperation for
self-modification and for a target currently holding quality_head, and
that this is enforced at the backend write path.  On the code those two
protections exist only as disabled UI controls: the write path
(`handleRoleChange` against the "Quality head can manage roles" RLS
policy, which checks only that the CALLER holds quality_head) lets a
quality head overwrite their own role and another quality head's role
without any error. -/
theorem quality_head_self_role_change_succeeds :
    handleRoleChange dbC8 4 4 (some AppRole.auditor)
      = ({ dbC8 with roles := [(4, AppRole.auditor), (7, AppRole.quality_head)] }, false) ∧
    handleRoleChange dbC8 4 7 (some AppRole.team_leader)
      = ({ dbC8 with roles := [(4, AppRole.quality_head), (7, AppRole.team_leader)] }, false) := by
  decide

/-- C9: a specification referenced by at least one recorded inspection
result cannot be deleted: the BEFORE DELETE trigger raises a
referential-integrity error, the statement aborts, and the database —
specification and referencing results included — is left unchanged.
Deletion never silently cascades. -/
theorem deleteSpecification_referenced_fails (db : Database) (uid : UserId) (specId : Nat)
    (hspec : ∃ s ∈ db.specifications, s.id = specId)
    (href : ∃ r ∈ db.results, r.specification_id = specId)
    (hqh : has_role db.roles uid AppRole.quality_head = true) :
    deleteSpecification db uid specId = (db, true) := by
  obtain ⟨s, hsmem, hsid⟩ := hspec
  obtain ⟨r, hrmem, hrid⟩ := href
  have hsfil : s ∈ db.specifications.filter
      (fun s => s.id == specId && has_role db.roles uid AppRole.quality_head) :=
    List.mem_filter.2 ⟨hsmem, by simp [hsid, hqh]⟩
  have hany : (db.specifications.filter
      (fun s => s.id == specId && has_role db.roles uid AppRole.quality_head)).any
      (fun s => db.results.any (fun r => r.specification_id == s.id)) = true :=
    List.any_eq_true.2 ⟨s, hsfil, List.any_eq_true.2 ⟨r, hrmem, by simp [hrid, hsid]⟩⟩
  simp only [deleteSpecification, hany, if_true]

/-- C9 witness: quality head 4 tries to delete specification 30, which is
referenced by result 22; the delete fails and nothing changes. -/
theorem deleteSpecification_referenced_fails_witness :
    deleteSpecification dbC9 4 30 = (dbC9, true) :=
  deleteSpecification_referenced_fails dbC9 4 30
    ⟨specDim, by decide, rfl⟩ ⟨resC9, by decide, rfl⟩ (by decide)

/-- C10: the audit ledger's write path checks nothing but ownership —
whenever the entry's approver_id equals the caller, the INSERT succeeds
and appends the entry verbatim, with no hypothesis about the caller's
role, the inspection's current status, or the entry's claimed action,
previous_status and new_status (the inspection merely has to exist, for
the foreign key). -/
theorem insertApprovalHistory_only_checks_approver_id (db : Database) (uid : UserId)
    (e : ApprovalHistoryEntry)
    (hown : e.approver_id = uid)
    (hfk : ∃ i ∈ db.inspections, i.id = e.inspection_id) :
    insertApprovalHistory db uid e = ({ db with history := db.history ++ [e] }, false) := by
  obtain ⟨i, him, hiid⟩ := hfk
  exact insertApprovalHistory_appends hown (List.any_eq_true.2 ⟨i, him, by simp [hiid]⟩)

/-- C10 witness: a caller with no role at all appends a ledger entry to an
approved inspection claiming a rejection from approved back to
pending_team_leader — the insert succeeds. -/
theorem insertApprovalHistory_only_checks_approver_id_witness :
    get_user_role dbC10.roles 9 = none ∧
    statusOf dbC10 16 = some InspectionStatus.approved ∧
    insertApprovalHistory dbC10 9 entryC10
      = ({ dbC10 with history := dbC10.history ++ [entryC10] }, false) :=
  ⟨by decide, by decide,
    insertApprovalHistory_only_checks_approver_id dbC10 9 entryC10 rfl ⟨inspC10, by decide, rfl⟩⟩

/-- C6 counterexample: the claimed iff fails on the code.  The Status
column of `CreateInspection` renders a clickable Pass/Fail toggle for
dimensional rows whose handler (`togglePassFail`, else branch) flips
`is_pass` without re-running the range check: entering "12" against the
10 to 11 tolerance computes fail, one toggle click turns it into a pass,
and the submit succeeds, storing the out-of-range numeric value "12"
with `is_pass = true`. -/
theorem createInspection_toggle_overrides_range_check :
    parseFloat "12" = some (mkRat 12 1) ∧
    ¬ (mkRat 10 1 ≤ mkRat 12 1 ∧ mkRat 12 1 ≤ mkRat 11 1) ∧
    (handleResultChange specDim inputInit "12").is_pass = false ∧
    inputC6tog.is_pass = true ∧
    inputC6tog.actual_value = "12" ∧
    (handleSubmit dbC6 1 5 [specDim] [inputC6tog] none none).2 = CreateOutcome.success ∧
    (handleSubmit dbC6 1 5 [specDim] [inputC6tog] none none).1.results.map
      InspectionResult.is_pass = [true] ∧
    (handleSubmit dbC6 1 5 [specDim] [inputC6tog] none none).1.results.map
      InspectionResult.actual_value = ["12"] := by
  decide

/-- C6 (amended): for every successful createInspection call, the created
inspection's status is always pending_team_leader (regardless of
pass/fail outcomes); the stored result of a dimensional specification
with tolerances whose pass flag was last set by entering the value
through `handleResultChange`, with numeric interpretation x, has
`is_pass = true` exactly when x lies in the closed tolerance interval;
but when the rendered Pass/Fail toggle was clicked after the value entry
the stored flag is the INVERSE of the range check, so an out-of-range
value can be submitted as a pass (see the counterexample). -/
theorem createInspection_dimensional_pass_and_initial_status
    (db : Database) (uid : UserId) (pid : Nat) (specs : List Specification)
    (inputs : List InspectionResultInput) (batch rem : Option String) (db2 : Database)
    (hsub : handleSubmit db uid pid specs inputs batch rem = (db2, CreateOutcome.success)) :
    (∃ insp, db2.inspections = db.inspections ++ [insp]
      ∧ insp.status = InspectionStatus.pending_team_leader ∧ insp.created_by = uid) ∧
    (∀ i spec r0 v x lo hi,
      specs.get? i = some spec →
      inputs.get? i = some (handleResultChange spec r0 v) →
      spec.specification_type = SpecificationType.dimensional →
      spec.tolerance_min = some lo → spec.tolerance_max = some hi →
      parseFloat v = some x →
      ∃ row, db2.results.get? (db.results.length + i) = some row ∧
        (row.is_pass = true ↔ (lo ≤ x ∧ x ≤ hi))) ∧
    (∀ i spec r0 v x lo hi,
      specs.get? i = some spec →
      inputs.get? i = some (togglePassFail spec (handleResultChange spec r0 v)) →
      spec.specification_type = SpecificationType.dimensional →
      spec.tolerance_min = some lo → spec.tolerance_max = some hi →
      parseFloat v = some x →
      ∃ row, db2.results.get? (db.results.length + i) = some row ∧
        (row.is_pass = true ↔ ¬ (lo ≤ x ∧ x ≤ hi))) := by
  unfold handleSubmit at hsub
  split at hsub
  · simp at hsub
  · split at hsub
    · simp at hsub
    · split at hsub
      · dsimp only at hsub
        split at hsub
        · rw [Prod.mk.injEq] at hsub
          obtain ⟨hdb2, -⟩ := hsub
          subst hdb2
          refine ⟨?_, ?_, ?_⟩
          · exact ⟨_, rfl, rfl, rfl⟩
          · intro i spec r0 v x lo hi hspec hinput hdim hlo hhi hx
            dsimp only
            rw [get?_append_len]
            rw [buildResultRows_get? (freshInspectionId db) (inputs.zip specs)
              (freshResultId db) i]
            rw [zip_get?_some inputs specs i _ _ hinput hspec]
            refine ⟨_, rfl, ?_⟩
            have hpass : (buildResultRow (freshInspectionId db) (freshResultId db + i)
                (handleResultChange spec r0 v, spec)).is_pass
                = (handleResultChange spec r0 v).is_pass := rfl
            rw [hpass, handleResultChange_is_pass hdim hlo hhi hx]
            simp
          · intro i spec r0 v x lo hi hspec hinput hdim hlo hhi hx
            dsimp only
            rw [get?_append_len]
            rw [buildResultRows_get? (freshInspectionId db) (inputs.zip specs)
              (freshResultId db) i]
            rw [zip_get?_some inputs specs i _ _ hinput hspec]
            refine ⟨_, rfl, ?_⟩
            have hpass : (buildResultRow (freshInspectionId db) (freshResultId db + i)
                (togglePassFail spec (handleResultChange spec r0 v), spec)).is_pass
                = (togglePassFail spec (handleResultChange spec r0 v)).is_pass := rfl
            rw [hpass, togglePassFail_is_pass_dimensional hdim,
              handleResultChange_is_pass hdim hlo hhi hx]
            by_cases hA : lo ≤ x <;> by_cases hB : x ≤ hi <;> simp [hA, hB]
        · simp at hsub
      · simp at hsub

/-- C6 witness: auditor 1 submits "10.5" against the 10 to 11 tolerance
(status pending_team_leader, stored pass because 10 ≤ 10.5 ≤ 11), and in
the toggled submission the stored flag is the inverse of the range check
on the entered "12". -/
theorem createInspection_dimensional_pass_and_initial_status_witness :
    (∃ insp, dbC6res.inspections = dbC6.inspections ++ [insp]
      ∧ insp.status = InspectionStatus.pending_team_leader ∧ insp.created_by = 1) ∧
    (∃ row, dbC6res.results.get? (dbC6.results.length + 0) = some row
      ∧ (row.is_pass = true ↔ (mkRat 10 1 ≤ mkRat 21 2 ∧ mkRat 21 2 ≤ mkRat 11 1))) ∧
    (∃ row, dbC6togres.results.get? (dbC6.results.length + 0) = some row
      ∧ (row.is_pass = true ↔ ¬ (mkRat 10 1 ≤ mkRat 12 1 ∧ mkRat 12 1 ≤ mkRat 11 1))) :=
  ⟨(createInspection_dimensional_pass_and_initial_status dbC6 1 5 [specDim] [inputC6]
      none none dbC6res (by decide)).1,
   (createInspection_dimensional_pass_and_initial_status dbC6 1 5 [specDim] [inputC6]
      none none dbC6res (by decide)).2.1
     0 specDim inputInit "10.5" (mkRat 21 2) (mkRat 10 1) (mkRat 11 1)
     rfl rfl rfl rfl rfl (by decide),
   (createInspection_dimensional_pass_and_initial_status dbC6 1 5 [specDim] [inputC6tog]
      none none dbC6togres (by decide)).2.2
     0 specDim inputInit "12" (mkRat 12 1) (mkRat 10 1) (mkRat 11 1)
     rfl rfl rfl rfl rfl (by decide)⟩

/-- C7 counterexample: the claim states createInspection fails with
ValidationError when a dimensional specification with tolerances has a
non-numeric actual value.  On the code the validation only tests for
emptiness after trimming: the non-numeric value "abc" (parseFloat NaN)
sails through, the inspection is created, and the stored result even
keeps the stale initialisation default `is_pass = true`. -/
theorem createInspection_accepts_nonnumeric_value :
    parseFloat "abc" = none ∧
    specDim.tolerance_min = some (mkRat 10 1) ∧
    (handleSubmit dbC7 1 5 [specDim] [inputC7] none none).2 = CreateOutcome.success ∧
    (handleSubmit dbC7 1 5 [specDim] [inputC7] none none).1.results.map
      InspectionResult.is_pass = [true] := by
  decide

/-- C7 (amended): createInspection fails with a validation error —
creating no inspection and no results — whenever some remarks-required
specification has an empty (after trimming) remark, or some dimensional
specification's actual value is empty after trimming; a non-empty
non-numeric actual value is not rejected (see the counterexample). -/
theorem createInspection_validation_failures
    (db : Database) (uid : UserId) (pid : Nat) (specs : List Specification)
    (inputs : List InspectionResultInput) (batch rem : Option String)
    (i : Nat) (spec : Specification) (r : InspectionResultInput)
    (hspec : specs.get? i = some spec) (hinput : inputs.get? i = some r)
    (hbad : (spec.remarks_required = true ∧ jsTrim r.remarks = "")
      ∨ (spec.specification_type = SpecificationType.dimensional
          ∧ jsTrim r.actual_value = "")) :
    (handleSubmit db uid pid specs inputs batch rem).1 = db ∧
    ((handleSubmit db uid pid specs inputs batch rem).2
        = CreateOutcome.validationMissingValues
      ∨ (handleSubmit db uid pid specs inputs batch rem).2
        = CreateOutcome.validationMissingRemarks) := by
  have hzip : (inputs.zip specs).get? i = some (r, spec) :=
    zip_get?_some inputs specs i _ _ hinput hspec
  have hmem : (r, spec) ∈ inputs.zip specs := List.get?_mem hzip
  rcases hbad with ⟨hreq, hrem⟩ | ⟨hdim, hval⟩
  · have hmr : submitMissingRemarks specs inputs = true :=
      List.any_eq_true.2 ⟨(r, spec), hmem, by simp [hreq, hrem]⟩
    unfold handleSubmit
    by_cases h1 : submitMissingValues specs inputs = true
    · rw [if_pos h1]
      exact ⟨rfl, Or.inl rfl⟩
    · rw [if_neg h1, if_pos hmr]
      exact ⟨rfl, Or.inr rfl⟩
  · have hmv : submitMissingValues specs inputs = true :=
      List.any_eq_true.2 ⟨(r, spec), hmem, by simp [hdim, hval]⟩
    unfold handleSubmit
    rw [if_pos hmv]
    exact ⟨rfl, Or.inl rfl⟩

/-- C7 witness: a functional specification with remarks required and a
whitespace-only remark makes the submit fail with a validation error and
leave the database unchanged. -/
theorem createInspection_validation_failures_witness :
    (handleSubmit dbC7 1 5 [specC7fn] [inputC7fn] none none).1 = dbC7 ∧
    ((handleSubmit dbC7 1 5 [specC7fn] [inputC7fn] none none).2
        = CreateOutcome.validationMissingValues
      ∨ (handleSubmit dbC7 1 5 [specC7fn] [inputC7fn] none none).2
        = CreateOutcome.validationMissingRemarks) :=
  createInspection_validation_failures dbC7 1 5 [specC7fn] [inputC7fn] none none
    0 specC7fn inputC7fn rfl rfl (Or.inl ⟨rfl, by decide⟩)

end QCAudit
